import Mathlib

/-!
Verification of the tubesync core (sync/models.py): Source/Media entities,
format-string selection, download-state derivation, filename synthesis,
extension selection, playlist flattening and metadata degradation.

Pure Python fragments are translated directly; the external collaborators
(the JSON parser from the standard library, and the matching module that is
not part of the sources) are either taken as parameters or modelled from the
specification, as noted on each definition.
-/

deriving instance DecidableEq for Except

namespace Tubesync

/-! ## Basic string helpers (models of the Python string operations used) -/

/-- Model of Python `str.strip()`: drop whitespace from both ends. -/
def pyStrip (s : String) : String :=
  String.mk (((s.data.dropWhile Char.isWhitespace).reverse.dropWhile
      Char.isWhitespace).reverse)

/-- Model of Python slicing `s[:n]`: keep the first `n` code points. -/
def pyTake (n : Nat) (s : String) : String :=
  String.mk (s.data.take n)

/-- Model of Python `str.replace(a, b)` when the pattern `a` is a single
character and the replacement is a single character: a character-wise map. -/
def replaceChar (a b : Char) (s : String) : String :=
  String.mk (s.data.map (fun c => if c = a then b else c))

/-- Model of Python `str.replace(a, r)` when the pattern `a` is a single
character: each occurrence of `a` expands to the string `r`. -/
def replaceCharStr (a : Char) (r : String) (s : String) : String :=
  String.mk (s.data.flatMap (fun c => if c = a then r.data else [c]))

/-- Model of Python `str.lower()` on the ASCII fragment. -/
def pyLower (s : String) : String :=
  String.mk (s.data.map Char.toLower)

/-- Characters kept by Django slugify after lowercasing:
word characters, whitespace and hyphens (the regex `[^\w\s-]` is removed). -/
def slugKeep (c : Char) : Bool :=
  c.isAlphanum || c = '_' || c = '-' || c.isWhitespace

/-- Collapse consecutive dashes into a single dash. -/
def dedupDash : List Char → List Char
  | [] => []
  | [c] => [c]
  | a :: b :: rest =>
    if a = '-' && b = '-' then dedupDash (b :: rest)
    else a :: dedupDash (b :: rest)

/-- Predicate for characters stripped from the ends by Django slugify. -/
def dashOrUnderscore (c : Char) : Bool := c = '-' || c = '_'

/-- Model of Django `slugify` on the ASCII fragment (the repository calls
`django.utils.text.slugify`, an external library function): lowercase, drop
characters outside word characters / whitespace / hyphens, turn whitespace
runs and hyphen runs into single hyphens, and strip leading and trailing
hyphens and underscores. -/
def slugify (s : String) : String :=
  let lowered := s.data.map Char.toLower
  let kept := lowered.filter slugKeep
  let dashed := kept.map (fun c => if c.isWhitespace then '-' else c)
  let collapsed := dedupDash dashed
  String.mk (((collapsed.dropWhile dashOrUnderscore).reverse.dropWhile
      dashOrUnderscore).reverse)

/-- Left-pad the decimal representation of a number with zeros to width `w`,
as Python `strftime` does for date components. -/
def padNat (w : Nat) (n : Nat) : String :=
  let s := toString n
  String.mk (List.replicate (w - s.length) '0') ++ s

/-- Calendar date, the fragment of a Python `datetime` used by the model. -/
structure Date where
  year : Nat
  month : Nat
  day : Nat
deriving DecidableEq, Repr

/-- Model of `datetime.strftime("%Y-%m-%d")`. -/
def formatDateYMD (d : Date) : String :=
  padNat 4 d.year ++ "-" ++ padNat 2 d.month ++ "-" ++ padNat 2 d.day

/-- Model of `os.path.basename` on POSIX: the part after the last slash. -/
def basename (p : String) : String :=
  String.mk ((p.data.reverse.takeWhile (fun c => c ≠ '/')).reverse)

/-! ## JSON values (the shape produced by `json.loads`) -/

/-- JSON value as produced by the standard-library JSON parser. -/
inductive JsonVal where
  | str (s : String)
  | num (n : Int)
  | boolean (b : Bool)
  | null
  | arr (xs : List JsonVal)
  | obj (fields : List (String × JsonVal))

/-- Model of `dict.get(key, default)` on a JSON value: look the key up when
the value is an object, otherwise return the default. -/
def jsonGet (v : JsonVal) (key : String) (dflt : JsonVal) : JsonVal :=
  match v with
  | JsonVal.obj fields =>
    match fields.lookup key with
    | some w => w
    | none => dflt
  | _ => dflt

/-- String content of a JSON value; the empty string when not a string. -/
def jsonStr (v : JsonVal) : String :=
  match v with
  | JsonVal.str s => s
  | _ => ""

/-- List content of a JSON value; the empty list when not an array. -/
def jsonArr (v : JsonVal) : List JsonVal :=
  match v with
  | JsonVal.arr xs => xs
  | _ => []

/-! ## Source -/

/-- Fallback policy characters stored on a Source (`FALLBACK_*`). -/
def FALLBACK_FAIL : Char := 'f'

/-- Fallback policy character for next-best. -/
def FALLBACK_NEXT_BEST : Char := 'n'

/-- Fallback policy character for next-best-at-least-HD. -/
def FALLBACK_NEXT_BEST_HD : Char := 'h'

/-- The audio-only resolution constant (`SOURCE_RESOLUTION_AUDIO`). -/
def SOURCE_RESOLUTION_AUDIO : String := "audio"

/-- The `RESOLUTION_MAP` table from Source, with the dictionary-get default
of 0 for unknown resolutions. -/
def resolutionMap (r : String) : Nat :=
  if r = "360p" then 360
  else if r = "480p" then 480
  else if r = "720p" then 720
  else if r = "1080p" then 1080
  else if r = "1440p" then 1440
  else if r = "2160p" then 2160
  else if r = "4320p" then 4320
  else 0

/-- Source entity: the fields of the Django model that the verified logic
reads. Character/enumeration fields keep their stored string or char form. -/
structure Source where
  source_type : Char
  key : String
  name : String
  directory : String
  source_resolution : String
  source_vcodec : String
  source_acodec : String
  prefer_60fps : Bool
  prefer_hdr : Bool
  fallback : Char
deriving DecidableEq, Repr

/-- Property `Source.is_audio`. -/
def Source.is_audio (s : Source) : Bool :=
  s.source_resolution = SOURCE_RESOLUTION_AUDIO

/-- Property `Source.is_video`. -/
def Source.is_video (s : Source) : Bool :=
  !s.is_audio

/-- Property `Source.source_resolution_height`. -/
def Source.source_resolution_height (s : Source) : Nat :=
  resolutionMap s.source_resolution

/-- Property `Source.can_fallback`. -/
def Source.can_fallback (s : Source) : Bool :=
  s.fallback ≠ FALLBACK_FAIL

/-- Property `Source.extension`: audio-only sources map MP4A to `m4a` and
OPUS to `ogg` and raise `ValueError` for any other audio codec (modelled as
`Except.error`); every video source gets `mkv`. -/
def Source.extension (s : Source) : Except String String :=
  if s.is_audio then
    if s.source_acodec = "MP4A" then Except.ok "m4a"
    else if s.source_acodec = "OPUS" then Except.ok "ogg"
    else Except.error "Unable to choose audio extension, uknown acodec"
  else Except.ok "mkv"

/-! ## Format records and the matcher -/

/-- Stream kind of a format record. -/
inductive StreamKind where
  | videoOnly
  | audioOnly
  | combined
deriving DecidableEq, Repr

/-- Modelled from the spec: the normalized FormatRecord produced by the
format parser (the parser and matcher live in modules that are not part of
the sources). Height is 0 for audio, codecs are the upstream codec labels
with the empty string for unknown/none, and `tbr` is the approximate
bitrate used as a tie-break. -/
structure FormatRecord where
  id : String
  kind : StreamKind
  height : Nat
  vcodec : String
  acodec : String
  fps : Nat
  hdr : Bool
  tbr : Nat
deriving DecidableEq, Repr

/-- Video codec priority ladder (`VP9 > AVC1`), higher is better. -/
def vcodecRank (c : String) : Nat :=
  if c = "VP9" then 2 else if c = "AVC1" then 1 else 0

/-- Audio codec priority ladder (`OPUS > MP4A`), higher is better. -/
def acodecRank (c : String) : Nat :=
  if c = "OPUS" then 2 else if c = "MP4A" then 1 else 0

/-- Modelled from the spec: tie-break score for video-bearing candidates,
preferring an fps match when 60fps is preferred, then an HDR match when HDR
is preferred, then the video codec priority ladder. -/
def videoScore (s : Source) (f : FormatRecord) : Nat :=
  (if s.prefer_60fps && 60 ≤ f.fps then 8 else 0) +
  (if s.prefer_hdr && f.hdr then 4 else 0) +
  vcodecRank f.vcodec

/-- Strict comparison used to fold over video candidates. -/
def betterVideo (s : Source) (g f : FormatRecord) : Bool :=
  videoScore s f < videoScore s g

/-- Modelled from the spec: audio tie-break, higher bitrate first and then
the audio codec priority ladder. -/
def betterAudio (g f : FormatRecord) : Bool :=
  f.tbr < g.tbr || (f.tbr = g.tbr && acodecRank f.acodec < acodecRank g.acodec)

/-- Deterministic pick of the best candidate: fold keeping the current
candidate unless a strictly better one appears, so ties keep the first
(stable ordering). -/
def pickBest (better : FormatRecord → FormatRecord → Bool) :
    List FormatRecord → Option FormatRecord
  | [] => none
  | f :: fs => some (fs.foldl (fun acc g => if better g acc then g else acc) f)

/-- Modelled from the spec: under the `next-best-at-least-hd` policy any
candidate below 720p height is excluded at every step of the ladder. -/
def hdFilter (fallback : Char) (l : List FormatRecord) : List FormatRecord :=
  if fallback = FALLBACK_NEXT_BEST_HD then l.filter (fun f => 720 ≤ f.height)
  else l

/-- One tier of the video ladder: HD-filter the tier then pick the best. -/
def tierPick (s : Source) (l : List FormatRecord) : Option FormatRecord :=
  pickBest (betterVideo s) (hdFilter s.fallback l)

/-- Exact-preference predicate for video-bearing candidates: target height,
target video codec, and for combined streams also the target audio codec. -/
def exactVideoPred (s : Source) (k : StreamKind) (f : FormatRecord) : Bool :=
  f.height = s.source_resolution_height && f.vcodec = s.source_vcodec &&
    (k ≠ StreamKind.combined || f.acodec = s.source_acodec)

/-- Modelled from the spec: best video-bearing candidate of stream kind `k`
(`bestCombined` for `k = combined`, `bestVideo` for `k = videoOnly`). The
exact-preference filter is tried first; when it is empty and the policy is
not `fail`, the relaxation ladder follows: drop the fps/HDR preference,
then drop the codec constraint keeping the resolution, then accept the
closest resolution at or below the target, then any format of the kind.
Under `next-best-at-least-hd` every tier excludes candidates below 720p. -/
def bestVideoKind (s : Source) (k : StreamKind) (fmts : List FormatRecord) :
    Option FormatRecord :=
  match tierPick s ((fmts.filter (fun f => f.kind = k)).filter
      (exactVideoPred s k)) with
  | some f => some f
  | none =>
    if s.fallback = FALLBACK_FAIL then none
    else
      match pickBest (fun g f => vcodecRank f.vcodec < vcodecRank g.vcodec)
          (hdFilter s.fallback ((fmts.filter (fun f => f.kind = k)).filter
            (exactVideoPred s k))) with
      | some f => some f
      | none =>
        match tierPick s ((fmts.filter (fun f => f.kind = k)).filter
            (fun f => f.height = s.source_resolution_height)) with
        | some f => some f
        | none =>
          match pickBest (fun g f => f.height < g.height) (hdFilter s.fallback
              ((fmts.filter (fun f => f.kind = k)).filter
                (fun f => f.height ≤ s.source_resolution_height))) with
          | some f => some f
          | none => tierPick s (fmts.filter (fun f => f.kind = k))

/-- Modelled from the spec: `get_best_combined_format` of the matching
module, returning the best combined candidate. -/
def get_best_combined_format (s : Source) (fmts : List FormatRecord) :
    Option FormatRecord :=
  bestVideoKind s StreamKind.combined fmts

/-- Modelled from the spec: `get_best_video_format` of the matching module,
returning the best video-only candidate. -/
def get_best_video_format (s : Source) (fmts : List FormatRecord) :
    Option FormatRecord :=
  bestVideoKind s StreamKind.videoOnly fmts

/-- Modelled from the spec: `get_best_audio_format` of the matching module.
Candidates are the audio-only records, or the combined records when an
audio-only source has no pure audio track; the target audio codec is tried
first, and unless the policy is `fail` any audio codec is accepted as the
relaxation, ranked by bitrate and the codec priority ladder. -/
def get_best_audio_format (s : Source) (fmts : List FormatRecord) :
    Option FormatRecord :=
  let pureAudio := fmts.filter (fun f => f.kind = StreamKind.audioOnly)
  let cands :=
    if s.is_audio && pureAudio.isEmpty then
      fmts.filter (fun f => f.kind = StreamKind.combined)
    else pureAudio
  match pickBest betterAudio (cands.filter (fun f => f.acodec = s.source_acodec)) with
  | some f => some f
  | none =>
    if s.fallback = FALLBACK_FAIL then none
    else pickBest betterAudio cands

/-- Resolved download decision: a single combined (or audio) stream, or a
separate video and audio pair. -/
inductive ResolvedFormat where
  | single (f : FormatRecord)
  | pair (v a : FormatRecord)
deriving DecidableEq, Repr

/-- Modelled from the spec: final format selection (`resolveFormat`): an
audio-only source takes the best audio candidate; otherwise the best
combined candidate when one exists, else a video+audio pair when both
exist, else no result. -/
def resolveFormat (s : Source) (fmts : List FormatRecord) :
    Option ResolvedFormat :=
  if s.is_audio then
    (get_best_audio_format s fmts).map ResolvedFormat.single
  else
    match get_best_combined_format s fmts with
    | some f => some (ResolvedFormat.single f)
    | none =>
      match get_best_video_format s fmts, get_best_audio_format s fmts with
      | some v, some a => some (ResolvedFormat.pair v a)
      | _, _ => none

/-- Translation of `Media.get_format_str` (models.py): audio-only sources
return the best audio format code or no result; other sources return the
best combined code, else `video_code+audio_code` when both a video and an
audio candidate exist, else no result. `none` models the Python `False`. -/
def get_format_str (s : Source) (fmts : List FormatRecord) : Option String :=
  if s.is_audio then
    match get_best_audio_format s fmts with
    | some f => some f.id
    | none => none
  else
    match get_best_combined_format s fmts with
    | some f => some f.id
    | none =>
      match get_best_audio_format s fmts, get_best_video_format s fmts with
      | some a, some v => some (v.id ++ "+" ++ a.id)
      | _, _ => none

/-! ## Media -/

/-- Media entity: the fields of the Django model that the verified logic
reads. `metadata` is the raw JSON blob (absent when NULL), `media_file`
holds the stored file name (absent when NULL, possibly empty). -/
structure Media where
  key : String
  created : Date
  metadata : Option String
  media_file : Option String
  downloaded : Bool
  source : Source

/-- Download state labels (`STATE_*`). -/
def STATE_UNKNOWN : String := "unknown"

/-- Download state label for a scheduled job. -/
def STATE_SCHEDULED : String := "scheduled"

/-- Download state label for an executing job. -/
def STATE_DOWNLOADING : String := "downloading"

/-- Download state label for a completed download. -/
def STATE_DOWNLOADED : String := "downloaded"

/-- Download state label for a failed job. -/
def STATE_ERROR : String := "error"

/-- External job record as observed by the state machine: the two
predicates `locked_by_pid_running()` and `has_error()` of the task object
(the task queue is an external collaborator), as booleans. -/
structure Task where
  locked_by_pid_running : Bool
  has_error : Bool
deriving DecidableEq, Repr

/-- Translation of `Media.get_download_state`: downloaded wins, then the
optional task record decides downloading/error/scheduled, and no task
record means unknown. -/
def get_download_state (downloaded : Bool) (task : Option Task) : String :=
  if downloaded then STATE_DOWNLOADED
  else
    match task with
    | some t =>
      if t.locked_by_pid_running then STATE_DOWNLOADING
      else if t.has_error then STATE_ERROR
      else STATE_SCHEDULED
    | none => STATE_UNKNOWN

/-- Translation of `Media.get_metadata_field`: the `METADATA_FIELDS` table
maps each logical field, for the two source types `c` and `p`, to the
identically named upstream key; anything else defaults to the empty
string. -/
def get_metadata_field (m : Media) (field : String) : String :=
  if field = "upload_date" || field = "title" || field = "thumbnail" ||
      field = "description" || field = "duration" || field = "formats" then
    if m.source.source_type = 'c' || m.source.source_type = 'p' then field
    else ""
  else ""

/-- Translation of `Media.loaded_metadata`, parameterised by the
standard-library JSON parser `parse` (`json.loads`, an external function;
`none` models a parse exception): any failure, including an absent blob,
degrades to the empty object. -/
def loaded_metadata (parse : String → Option JsonVal) (m : Media) : JsonVal :=
  match m.metadata with
  | none => JsonVal.obj []
  | some blob =>
    match parse blob with
    | some v => v
    | none => JsonVal.obj []

/-- Translation of `Media.title`: the title metadata field, stripped. -/
def media_title (parse : String → Option JsonVal) (m : Media) : String :=
  pyStrip (jsonStr (jsonGet (loaded_metadata parse m)
      (get_metadata_field m "title") (JsonVal.str "")))

/-- Translation of `Media.description`: the description field, stripped. -/
def media_description (parse : String → Option JsonVal) (m : Media) : String :=
  pyStrip (jsonStr (jsonGet (loaded_metadata parse m)
      (get_metadata_field m "description") (JsonVal.str "")))

/-- Translation of `Media.thumbnail`: the thumbnail field, stripped. -/
def media_thumbnail (parse : String → Option JsonVal) (m : Media) : String :=
  pyStrip (jsonStr (jsonGet (loaded_metadata parse m)
      (get_metadata_field m "thumbnail") (JsonVal.str "")))

/-- Translation of `Media.name`: the title, or the key when blank. -/
def media_name (parse : String → Option JsonVal) (m : Media) : String :=
  let title := media_title parse m
  if title ≠ "" then title else m.key

/-- Translation of `Media.formats`: the raw format list from metadata,
degrading to the empty list. -/
def media_formats (parse : String → Option JsonVal) (m : Media) :
    List JsonVal :=
  jsonArr (jsonGet (loaded_metadata parse m)
      (get_metadata_field m "formats") (JsonVal.arr []))

/-- Model of `datetime.strptime(s, "%Y%m%d")`: eight digits with a valid
month and day, otherwise a parse failure. -/
def parseYYYYMMDD (s : String) : Option Date :=
  match s.data with
  | [y1, y2, y3, y4, m1, m2, d1, d2] =>
    if [y1, y2, y3, y4, m1, m2, d1, d2].all Char.isDigit then
      let y := (y1.toNat - 48) * 1000 + (y2.toNat - 48) * 100 +
               (y3.toNat - 48) * 10 + (y4.toNat - 48)
      let mo := (m1.toNat - 48) * 10 + (m2.toNat - 48)
      let d := (d1.toNat - 48) * 10 + (d2.toNat - 48)
      if 1 ≤ mo && mo ≤ 12 && 1 ≤ d && d ≤ 31 then some ⟨y, mo, d⟩ else none
    else none
  | _ => none

/-- Translation of `Media.upload_date`: the stripped upload-date metadata
field parsed as `%Y%m%d`, or no date when parsing fails. -/
def upload_date (parse : String → Option JsonVal) (m : Media) : Option Date :=
  parseYYYYMMDD (pyStrip (jsonStr (jsonGet (loaded_metadata parse m)
      (get_metadata_field m "upload_date") (JsonVal.str ""))))

/-- Truthiness of the stored media file, as Django evaluates it: a file
field is truthy exactly when its name is non-empty. -/
def mediaFileTruthy (m : Media) : Bool :=
  match m.media_file with
  | some p => p ≠ ""
  | none => false

/-- Date segment of the synthesized filename: the upload date, or the
creation date when the upload date is unparseable, as `YYYY-MM-DD`. -/
def filenameDateStr (parse : String → Option JsonVal) (m : Media) : String :=
  formatDateYMD ((upload_date parse m).getD m.created)

/-- Source-name segment of the synthesized filename. -/
def filenameSourceName (m : Media) : String :=
  replaceChar '_' '-' (slugify m.source.name)

/-- Title segment of the synthesized filename: the slugified name (title or
key) with ampersands and pluses spelled `and`, underscores dashed, capped
at 80 characters. -/
def filenameName (parse : String → Option JsonVal) (m : Media) : String :=
  pyTake 80 (replaceChar '_' '-' (slugify (replaceCharStr '+' "and"
      (replaceCharStr '&' "and" (media_name parse m)))))

/-- Key segment of the synthesized filename: the stripped key with
underscores dashed, capped at 20 characters. -/
def filenameKey (m : Media) : String :=
  pyTake 20 (replaceChar '_' '-' (pyStrip m.key))

/-- Model of Python `"-".join(xs)`. -/
def joinDash : List String → String
  | [] => ""
  | [x] => x
  | x :: y :: rest => x ++ "-" ++ joinDash (y :: rest)

/-- Tag segment of the synthesized filename: the audio codec for audio-only
sources, else resolution, video codec and audio codec; `60fps` and `hdr`
are appended whenever the source prefers them. -/
def filenameFmt (m : Media) : String :=
  let base :=
    if m.source.is_audio then [pyLower m.source.source_acodec]
    else [pyLower m.source.source_resolution, pyLower m.source.source_vcodec,
          pyLower m.source.source_acodec]
  let withFps := if m.source.prefer_60fps then base ++ ["60fps"] else base
  let withHdr := if m.source.prefer_hdr then withFps ++ ["hdr"] else withFps
  joinDash withHdr

/-- Translation of `Media.filename`: the basename of the stored media file
when one is recorded, otherwise the synthesized
`date_source_name_key_fmt.ext` string; a `ValueError` from extension
selection propagates as an error. -/
def filename (parse : String → Option JsonVal) (m : Media) :
    Except String String :=
  if mediaFileTruthy m then
    Except.ok (basename ((m.media_file).getD ""))
  else
    match m.source.extension with
    | Except.error e => Except.error e
    | Except.ok ext =>
      Except.ok (filenameDateStr parse m ++ "_" ++ filenameSourceName m ++
        "_" ++ filenameName parse m ++ "_" ++ filenameKey m ++ "_" ++
        filenameFmt m ++ "." ++ ext)

/-- Storage configuration (`settings.DOWNLOAD_ROOT` and the audio/video
subdirectories), passed explicitly. -/
structure StorageCfg where
  downloadRoot : String
  audioDir : String
  videoDir : String

/-- Translation of `Source.directory_path`. -/
def directory_path (cfg : StorageCfg) (s : Source) : String :=
  if s.source_resolution = SOURCE_RESOLUTION_AUDIO then
    cfg.downloadRoot ++ "/" ++ cfg.audioDir ++ "/" ++ s.directory
  else
    cfg.downloadRoot ++ "/" ++ cfg.videoDir ++ "/" ++ s.directory

/-- Translation of `Media.filepath`: the source directory joined with the
filename. -/
def filepath (cfg : StorageCfg) (parse : String → Option JsonVal)
    (m : Media) : Except String String :=
  match filename parse m with
  | Except.error e => Except.error e
  | Except.ok f => Except.ok (directory_path cfg m.source ++ "/" ++ f)

/-- Translation of `Media.url`: the watch URL for the two known source
types, built from the key; unknown source types give the empty string. -/
def media_url (m : Media) : String :=
  if m.source.source_type = 'c' || m.source.source_type = 'p' then
    "https://www.youtube.com/watch?v=" ++ m.key
  else ""

/-- Record of one invocation of the external downloader
(`download_youtube_media`), with the arguments it receives. -/
structure DownloadCall where
  url : String
  format_str : String
  extension : String
  output_path : String
deriving DecidableEq, Repr

/-- Translation of `Media.download_media`: a falsy format string raises
(`NoFormatException` path, modelled as an error, with no downloader
invocation); otherwise the downloader is invoked and the format string and
extension are returned. The format set is the parsed view of the media's
raw formats (the parser is an external module). -/
def download_media (cfg : StorageCfg) (parse : String → Option JsonVal)
    (m : Media) (fmts : List FormatRecord) :
    Except String (DownloadCall × String × String) :=
  match get_format_str m.source fmts with
  | none => Except.error "Cannot download, media has no valid format available"
  | some fs =>
    if fs = "" then
      Except.error "Cannot download, media has no valid format available"
    else
      match m.source.extension, filepath cfg parse m with
      | Except.ok ext, Except.ok fp =>
        Except.ok (⟨media_url m, fs, ext, fp⟩, fs, ext)
      | Except.error e, _ => Except.error e
      | _, Except.error e => Except.error e

/-! ## Playlist flattening -/

/-- Playlist entry as returned by the external indexer: a record with an
identifier and a possibly empty list of sub-entries; `Option.none` in an
entry list models a falsy entry (an empty record). A record with no
`entries` key behaves as one with an empty list. -/
inductive PEntry where
  | mk (pid : String) (entries : List (Option PEntry))

/-- Entry list of a playlist entry. -/
def PEntry.entries : PEntry → List (Option PEntry)
  | .mk _ es => es

/-- Identifier of a playlist entry. -/
def PEntry.pid : PEntry → String
  | .mk i _ => i

mutual
/-- Translation of `_recurse_playlists` inside `Source.index_media`: a
falsy playlist yields no videos, otherwise its entries are walked in order;
a falsy entry is skipped, an entry with sub-entries is recursed into, and
any other entry is emitted. -/
def recursePlaylists : Option PEntry → List PEntry
  | none => []
  | some (.mk _ es) => recurseEntries es

/-- Entry loop of `_recurse_playlists`, accumulating in iteration order. -/
def recurseEntries : List (Option PEntry) → List PEntry
  | [] => []
  | none :: rest => recurseEntries rest
  | some (.mk i es) :: rest =>
    (if es.isEmpty then [PEntry.mk i es]
     else recursePlaylists (some (PEntry.mk i es))) ++ recurseEntries rest
end

/-- Entry forest of an optional playlist response: empty for a falsy
response. -/
def playlistEntries : Option PEntry → List (Option PEntry)
  | none => []
  | some e => e.entries

/-- Claim-side definition (follows the specification's words, to be
compared with the translation of `_recurse_playlists`): the depth-first
sequence of leaf entries of a forest, preserving source ordering, where a
leaf is a non-falsy entry with no sub-entries. -/
def dfLeavesForest : List (Option PEntry) → List PEntry
  | [] => []
  | none :: rest => dfLeavesForest rest
  | some (.mk i es) :: rest =>
    (if es.isEmpty then [PEntry.mk i es] else dfLeavesForest es) ++
      dfLeavesForest rest

/-! ## Claim-side filename definitions -/

/-- Model of underscore-joining a list of filename segments. -/
def joinUnderscore : List String → String
  | [] => ""
  | [x] => x
  | x :: y :: rest => x ++ "_" ++ joinUnderscore (y :: rest)

/-- Claim-side definition (follows the claim's words, to be compared with
the translation of `Media.filename`): tag list with `60fps`/`hdr` appended
only for video sources — audio-only sources get the audio codec alone. -/
def claimTagsOriginal (s : Source) : List String :=
  if s.is_audio then [pyLower s.source_acodec]
  else
    [pyLower s.source_resolution, pyLower s.source_vcodec,
     pyLower s.source_acodec] ++
    (if s.prefer_60fps then ["60fps"] else []) ++
    (if s.prefer_hdr then ["hdr"] else [])

/-- Claim-side definition of the synthesized filename exactly as the claim
states it: date, slugified source name, capped title-or-key, capped key,
dash-joined tag list with preference tags only on video sources, and the
container extension. -/
def filenameClaimed (parse : String → Option JsonVal) (m : Media) :
    Except String String :=
  match m.source.extension with
  | Except.error e => Except.error e
  | Except.ok ext =>
    Except.ok (joinUnderscore
      [filenameDateStr parse m, filenameSourceName m, filenameName parse m,
       filenameKey m, joinDash (claimTagsOriginal m.source)] ++ "." ++ ext)

/-- Amended tag list: `60fps`/`hdr` are appended for every source that
prefers them, including audio-only sources. -/
def claimTagsAmended (s : Source) : List String :=
  (if s.is_audio then [pyLower s.source_acodec]
   else [pyLower s.source_resolution, pyLower s.source_vcodec,
         pyLower s.source_acodec]) ++
  (if s.prefer_60fps then ["60fps"] else []) ++
  (if s.prefer_hdr then ["hdr"] else [])

/-- Amended claim-side filename: as `filenameClaimed` but with the amended
tag list. -/
def filenameAmendedSpec (parse : String → Option JsonVal) (m : Media) :
    Except String String :=
  match m.source.extension with
  | Except.error e => Except.error e
  | Except.ok ext =>
    Except.ok (joinUnderscore
      [filenameDateStr parse m, filenameSourceName m, filenameName parse m,
       filenameKey m, joinDash (claimTagsAmended m.source)] ++ "." ++ ext)

/-- Resolution height of a resolved download decision: the height of the
selected video-bearing stream (the video component of a pair). -/
def resolvedHeight : ResolvedFormat → Nat
  | .single f => f.height
  | .pair v _ => v.height

/-! ## Theorems -/

/-- C2: download state derivation is a pure mapping of the downloaded flag
and the optional job record onto the five labels: downloaded always wins;
without a job the state is unknown; a job locked by a live process gives
downloading; a job with a recorded error gives error; all remaining cases
give scheduled. -/
theorem C2_download_state_mapping :
    (∀ t : Option Task, get_download_state true t = STATE_DOWNLOADED) ∧
    get_download_state false none = STATE_UNKNOWN ∧
    (∀ t : Task, t.locked_by_pid_running = true →
      get_download_state false (some t) = STATE_DOWNLOADING) ∧
    (∀ t : Task, t.locked_by_pid_running = false → t.has_error = true →
      get_download_state false (some t) = STATE_ERROR) ∧
    (∀ t : Task, t.locked_by_pid_running = false → t.has_error = false →
      get_download_state false (some t) = STATE_SCHEDULED) := by
  refine ⟨fun t => rfl, rfl, ?_, ?_, ?_⟩
  · intro t h; simp [get_download_state, h]
  · intro t h h2; simp [get_download_state, h, h2]
  · intro t h h2; simp [get_download_state, h, h2]

/-- Witness for C2 at concrete inputs. -/
theorem C2_download_state_mapping_witness :
    get_download_state true (some ⟨false, true⟩) = STATE_DOWNLOADED ∧
    get_download_state false (some ⟨true, false⟩) = STATE_DOWNLOADING ∧
    get_download_state false (some ⟨false, true⟩) = STATE_ERROR ∧
    get_download_state false (some ⟨false, false⟩) = STATE_SCHEDULED :=
  ⟨C2_download_state_mapping.1 _,
   C2_download_state_mapping.2.2.1 ⟨true, false⟩ rfl,
   C2_download_state_mapping.2.2.2.1 ⟨false, true⟩ rfl rfl,
   C2_download_state_mapping.2.2.2.2 ⟨false, false⟩ rfl rfl⟩

/-- C4: container extension selection: `m4a` for audio-only MP4A, `ogg`
for audio-only OPUS, the single fixed container `mkv` for every video
source, and a raised error for an audio-only source with an unrecognized
audio codec. -/
theorem C4_extension_selection :
    (∀ s : Source, s.is_audio = true → s.source_acodec = "MP4A" →
      s.extension = Except.ok "m4a") ∧
    (∀ s : Source, s.is_audio = true → s.source_acodec = "OPUS" →
      s.extension = Except.ok "ogg") ∧
    (∀ s : Source, s.is_audio = false → s.extension = Except.ok "mkv") ∧
    (∀ s : Source, s.is_audio = true → s.source_acodec ≠ "MP4A" →
      s.source_acodec ≠ "OPUS" → ∃ e, s.extension = Except.error e) := by
  refine ⟨?_, ?_, ?_, ?_⟩
  · intro s h1 h2; simp [Source.extension, h1, h2]
  · intro s h1 h2; simp [Source.extension, h1, h2]
  · intro s h1; simp [Source.extension, h1]
  · intro s h1 h2 h3
    refine ⟨"Unable to choose audio extension, uknown acodec", ?_⟩
    simp [Source.extension, h1, h2, h3]

/-- Witness for C4 at concrete sources. -/
theorem C4_extension_selection_witness :
    (Source.mk 'c' "k" "n" "d" "audio" "VP9" "MP4A" false false 'h').extension
      = Except.ok "m4a" ∧
    (Source.mk 'c' "k" "n" "d" "audio" "VP9" "OPUS" false false 'h').extension
      = Except.ok "ogg" ∧
    (Source.mk 'c' "k" "n" "d" "1080p" "VP9" "OPUS" false false 'h').extension
      = Except.ok "mkv" ∧
    ∃ e, (Source.mk 'c' "k" "n" "d" "audio" "VP9" "FLAC" false false
      'h').extension = Except.error e :=
  ⟨C4_extension_selection.1 _ (by decide) rfl,
   C4_extension_selection.2.1 _ (by decide) rfl,
   C4_extension_selection.2.2.1 _ (by decide),
   C4_extension_selection.2.2.2 _ (by decide) (by decide) (by decide)⟩

/-- C8: metadata loading never fails: an absent or unparseable metadata
blob degrades to the empty record, and title, description and thumbnail
degrade to the empty string while the format list degrades to the empty
list. -/
theorem C8_metadata_degrades (parse : String → Option JsonVal) (m : Media)
    (h : m.metadata = none ∨ ∃ s, m.metadata = some s ∧ parse s = none) :
    loaded_metadata parse m = JsonVal.obj [] ∧
    media_title parse m = "" ∧
    media_description parse m = "" ∧
    media_thumbnail parse m = "" ∧
    media_formats parse m = [] := by
  have hl : loaded_metadata parse m = JsonVal.obj [] := by
    rcases h with h | ⟨s, hs, hp⟩
    · simp [loaded_metadata, h]
    · simp [loaded_metadata, hs, hp]
  refine ⟨hl, ?_, ?_, ?_, ?_⟩ <;>
    simp [media_title, media_description, media_thumbnail, media_formats,
      hl, jsonGet, jsonStr, jsonArr, pyStrip]

/-- Witness for C8 at a concrete media record with an unparseable blob. -/
theorem C8_metadata_degrades_witness :
    media_title (fun _ => none)
      (Media.mk "k" ⟨2020, 1, 1⟩ (some "notjson") none false
        (Source.mk 'c' "sk" "sn" "sd" "1080p" "VP9" "OPUS" true false 'h'))
      = "" :=
  (C8_metadata_degrades (fun _ => none) _ (Or.inr ⟨"notjson", rfl, rfl⟩)).2.1

/-- C9: when a media file is recorded, the filename is exactly the basename
of the stored path and the synthesis rules are not used. -/
theorem C9_filename_uses_basename (parse : String → Option JsonVal)
    (m : Media) (p : String) (h1 : m.media_file = some p) (h2 : p ≠ "") :
    filename parse m = Except.ok (basename p) := by
  have ht : mediaFileTruthy m = true := by simp [mediaFileTruthy, h1, h2]
  simp [filename, ht, h1]

/-- Witness for C9 at a concrete media record with a stored file. -/
theorem C9_filename_uses_basename_witness :
    filename (fun _ => none)
      (Media.mk "k" ⟨2020, 1, 1⟩ none (some "video/a/b.mkv") false
        (Source.mk 'c' "sk" "sn" "sd" "1080p" "VP9" "OPUS" true false 'h'))
      = Except.ok "b.mkv" := by
  have h := C9_filename_uses_basename (fun _ => none)
    (Media.mk "k" ⟨2020, 1, 1⟩ none (some "video/a/b.mkv") false
      (Source.mk 'c' "sk" "sn" "sd" "1080p" "VP9" "OPUS" true false 'h'))
    "video/a/b.mkv" rfl (by decide)
  rw [h]
  rfl

/-- C10: when format selection yields no downloadable format, downloading
raises on the no-format path and the external downloader is never
invoked. -/
theorem C10_no_format_never_downloads (cfg : StorageCfg)
    (parse : String → Option JsonVal) (m : Media)
    (fmts : List FormatRecord) (h : get_format_str m.source fmts = none) :
    (∃ e, download_media cfg parse m fmts = Except.error e) ∧
    ∀ c : DownloadCall, ∀ fs ext : String,
      download_media cfg parse m fmts ≠ Except.ok (c, fs, ext) := by
  unfold download_media
  rw [h]
  exact ⟨⟨_, rfl⟩, by intro c fs ext; simp⟩

/-- Witness for C10 at a concrete media record with no formats. -/
theorem C10_no_format_never_downloads_witness :
    ∃ e, download_media ⟨"root", "audio", "video"⟩ (fun _ => none)
      (Media.mk "k" ⟨2020, 1, 1⟩ none none false
        (Source.mk 'c' "sk" "sn" "sd" "1080p" "VP9" "OPUS" true false 'h'))
      [] = Except.error e :=
  (C10_no_format_never_downloads ⟨"root", "audio", "video"⟩ (fun _ => none)
    (Media.mk "k" ⟨2020, 1, 1⟩ none none false
      (Source.mk 'c' "sk" "sn" "sd" "1080p" "VP9" "OPUS" true false 'h'))
    [] (by decide)).1

/-- C1: final format selection: audio-only sources yield the best audio
format's code or no result; otherwise the best combined format's code when
one exists, else the pair joined as `video_code+audio_code` when both a
best video and a best audio format exist, and no result when either is
missing. -/
theorem C1_get_format_str (s : Source) (fmts : List FormatRecord) :
    (s.is_audio = true →
      get_format_str s fmts =
        (get_best_audio_format s fmts).map FormatRecord.id) ∧
    (s.is_audio = false → ∀ f, get_best_combined_format s fmts = some f →
      get_format_str s fmts = some f.id) ∧
    (s.is_audio = false → get_best_combined_format s fmts = none →
      ∀ v a, get_best_video_format s fmts = some v →
        get_best_audio_format s fmts = some a →
        get_format_str s fmts = some (v.id ++ "+" ++ a.id)) ∧
    (s.is_audio = false → get_best_combined_format s fmts = none →
      (get_best_video_format s fmts = none ∨
        get_best_audio_format s fmts = none) →
      get_format_str s fmts = none) := by
  refine ⟨?_, ?_, ?_, ?_⟩
  · intro h
    cases ha : get_best_audio_format s fmts <;> simp [get_format_str, h, ha]
  · intro h f hf
    simp [get_format_str, h, hf]
  · intro h hc v a hv ha
    simp [get_format_str, h, hc, hv, ha]
  · intro h hc hva
    rcases hva with hv | ha
    · cases ha : get_best_audio_format s fmts <;>
        simp [get_format_str, h, hc, hv, ha]
    · simp [get_format_str, h, hc, ha]

/-- Witness for C1: the audio branch, the combined branch and the pair
branch at concrete sources and format sets. -/
theorem C1_get_format_str_witness :
    get_format_str (Source.mk 'c' "sk" "sn" "sd" "audio" "VP9" "MP4A"
        false false 'h')
      [⟨"140", StreamKind.audioOnly, 0, "", "MP4A", 0, false, 128⟩] =
      (get_best_audio_format (Source.mk 'c' "sk" "sn" "sd" "audio" "VP9"
        "MP4A" false false 'h')
        [⟨"140", StreamKind.audioOnly, 0, "", "MP4A", 0, false, 128⟩]).map
        FormatRecord.id ∧
    get_format_str (Source.mk 'c' "sk" "sn" "sd" "720p" "AVC1" "MP4A"
        false false 'n')
      [⟨"22", StreamKind.combined, 720, "AVC1", "MP4A", 30, false, 1000⟩] =
      some "22" ∧
    get_format_str (Source.mk 'c' "sk" "sn" "sd" "1080p" "VP9" "OPUS"
        false false 'n')
      [⟨"248", StreamKind.videoOnly, 1080, "VP9", "", 30, false, 2000⟩,
       ⟨"251", StreamKind.audioOnly, 0, "", "OPUS", 0, false, 160⟩] =
      some "248+251" :=
  ⟨(C1_get_format_str _ _).1 (by decide),
   (C1_get_format_str _ _).2.1 (by decide)
     ⟨"22", StreamKind.combined, 720, "AVC1", "MP4A", 30, false, 1000⟩
     (by decide),
   (C1_get_format_str _ _).2.2.1 (by decide) (by decide)
     ⟨"248", StreamKind.videoOnly, 1080, "VP9", "", 30, false, 2000⟩
     ⟨"251", StreamKind.audioOnly, 0, "", "OPUS", 0, false, 160⟩
     (by decide) (by decide)⟩

/-- Folding a strict-improvement step over a list stays within the initial
candidate and the list. -/
theorem foldl_pick_mem (better : FormatRecord → FormatRecord → Bool)
    (l : List FormatRecord) (a : FormatRecord) :
    l.foldl (fun acc g => if better g acc then g else acc) a = a ∨
      l.foldl (fun acc g => if better g acc then g else acc) a ∈ l := by
  induction l generalizing a with
  | nil => exact Or.inl rfl
  | cons x xs ih =>
    simp only [List.foldl_cons]
    rcases ih (if better x a then x else a) with h | h
    · rw [h]
      by_cases hb : better x a = true
      · rw [if_pos hb]
        exact Or.inr (List.mem_cons_self x xs)
      · rw [if_neg hb]
        exact Or.inl rfl
    · exact Or.inr (List.mem_cons_of_mem x h)

/-- The picked candidate is a member of the candidate list. -/
theorem pickBest_mem (better : FormatRecord → FormatRecord → Bool)
    (l : List FormatRecord) (f : FormatRecord)
    (h : pickBest better l = some f) : f ∈ l := by
  cases l with
  | nil => simp [pickBest] at h
  | cons x xs =>
    simp only [pickBest, Option.some.injEq] at h
    rcases foldl_pick_mem better xs x with he | he
    · rw [h] at he; exact he ▸ List.mem_cons_self x xs
    · rw [h] at he; exact List.mem_cons_of_mem x he

/-- Under the at-least-HD policy, any pick from an HD-filtered tier has
height at least 720. -/
theorem pickBest_hd_height (better : FormatRecord → FormatRecord → Bool)
    (l : List FormatRecord) (f : FormatRecord)
    (h : pickBest better (hdFilter FALLBACK_NEXT_BEST_HD l) = some f) :
    720 ≤ f.height := by
  have hm := pickBest_mem better _ f h
  simp only [hdFilter, if_pos rfl] at hm
  exact of_decide_eq_true (List.mem_filter.mp hm).2

/-- Under the at-least-HD policy, any tier pick has height at least 720. -/
theorem tierPick_hd_height (s : Source) (l : List FormatRecord)
    (f : FormatRecord) (hfb : s.fallback = FALLBACK_NEXT_BEST_HD)
    (h : tierPick s l = some f) : 720 ≤ f.height := by
  unfold tierPick at h
  rw [hfb] at h
  exact pickBest_hd_height _ _ _ h

/-- Under the at-least-HD policy, any result of the video ladder has height
at least 720. -/
theorem bestVideoKind_hd_height (s : Source) (k : StreamKind)
    (fmts : List FormatRecord) (f : FormatRecord)
    (hfb : s.fallback = FALLBACK_NEXT_BEST_HD)
    (h : bestVideoKind s k fmts = some f) : 720 ≤ f.height := by
  unfold bestVideoKind at h
  split at h
  · rename_i f1 heq
    exact Option.some.inj h ▸ tierPick_hd_height s _ f1 hfb heq
  · split at h
    · exact absurd h (by simp)
    · split at h
      · rename_i f1 heq
        rw [hfb] at heq
        exact Option.some.inj h ▸ pickBest_hd_height _ _ _ heq
      · split at h
        · rename_i f1 heq
          exact Option.some.inj h ▸ tierPick_hd_height s _ f1 hfb heq
        · split at h
          · rename_i f1 heq
            rw [hfb] at heq
            exact Option.some.inj h ▸ pickBest_hd_height _ _ _ heq
          · exact tierPick_hd_height s _ f hfb h

/-- When every format of the stream kind is below 720p, an HD-filtered tier
that refines the kind filter is empty. -/
theorem hd_subfilter_nil (fmts : List FormatRecord) (k : StreamKind)
    (p : FormatRecord → Bool)
    (hsmall : ∀ g ∈ fmts, g.kind = k → g.height < 720) :
    hdFilter FALLBACK_NEXT_BEST_HD
      ((fmts.filter (fun f => f.kind = k)).filter p) = [] := by
  simp only [hdFilter, if_pos rfl]
  refine List.filter_eq_nil_iff.mpr ?_
  intro a ha
  have h1 := List.mem_filter.mp ha
  have h2 := List.mem_filter.mp h1.1
  have hk : a.kind = k := of_decide_eq_true h2.2
  have hlt := hsmall a h2.1 hk
  simp only [decide_eq_true_eq]
  omega

/-- When every format of the stream kind is below 720p, the HD-filtered
kind tier itself is empty. -/
theorem hd_kindfilter_nil (fmts : List FormatRecord) (k : StreamKind)
    (hsmall : ∀ g ∈ fmts, g.kind = k → g.height < 720) :
    hdFilter FALLBACK_NEXT_BEST_HD (fmts.filter (fun f => f.kind = k)) = [] := by
  simp only [hdFilter, if_pos rfl]
  refine List.filter_eq_nil_iff.mpr ?_
  intro a ha
  have h2 := List.mem_filter.mp ha
  have hk : a.kind = k := of_decide_eq_true h2.2
  have hlt := hsmall a h2.1 hk
  simp only [decide_eq_true_eq]
  omega

/-- When every format of the stream kind is below 720p, the video ladder
under the at-least-HD policy returns nothing. -/
theorem bestVideoKind_hd_none (s : Source) (k : StreamKind)
    (fmts : List FormatRecord) (hfb : s.fallback = FALLBACK_NEXT_BEST_HD)
    (hsmall : ∀ g ∈ fmts, g.kind = k → g.height < 720) :
    bestVideoKind s k fmts = none := by
  unfold bestVideoKind tierPick
  rw [hfb, hd_subfilter_nil fmts k _ hsmall, hd_subfilter_nil fmts k _ hsmall,
    hd_subfilter_nil fmts k _ hsmall, hd_kindfilter_nil fmts k hsmall]
  simp [pickBest]

/-- C3: under the next-best-at-least-HD fallback policy, any match that
format resolution returns has resolution height at least 720; when no
candidate of the video-bearing stream kinds reaches 720p, the result is
undownloadable; and there is a format set (a single 360p combined stream
against a 1080p target) on which the plain next-best policy succeeds while
the at-least-HD policy yields no result. -/
theorem C3_next_best_hd_floor (s : Source) (fmts : List FormatRecord)
    (hfb : s.fallback = FALLBACK_NEXT_BEST_HD) (hv : s.is_audio = false) :
    (∀ r, resolveFormat s fmts = some r → 720 ≤ resolvedHeight r) ∧
    ((∀ g ∈ fmts,
        (g.kind = StreamKind.combined ∨ g.kind = StreamKind.videoOnly) →
        g.height < 720) →
      resolveFormat s fmts = none) ∧
    (resolveFormat
        (Source.mk 'c' "sk" "sn" "sd" "1080p" "VP9" "OPUS" false false 'h')
        [⟨"18", StreamKind.combined, 360, "VP9", "OPUS", 30, false, 500⟩] =
        none ∧
      resolveFormat
        (Source.mk 'c' "sk" "sn" "sd" "1080p" "VP9" "OPUS" false false 'n')
        [⟨"18", StreamKind.combined, 360, "VP9", "OPUS", 30, false, 500⟩] =
        some (ResolvedFormat.single
          ⟨"18", StreamKind.combined, 360, "VP9", "OPUS", 30, false, 500⟩)) := by
  refine ⟨?_, ?_, by decide, by decide⟩
  · intro r hr
    simp only [resolveFormat, hv, Bool.false_eq_true, if_false] at hr
    split at hr
    · rename_i f heq
      have hh := bestVideoKind_hd_height s StreamKind.combined fmts f hfb heq
      rw [← Option.some.inj hr]
      simpa [resolvedHeight] using hh
    · split at hr
      · rename_i v a hv2 ha2
        have hh := bestVideoKind_hd_height s StreamKind.videoOnly fmts v hfb hv2
        rw [← Option.some.inj hr]
        simpa [resolvedHeight] using hh
      · exact absurd hr (by simp)
  · intro hsmall
    have hc : get_best_combined_format s fmts = none :=
      bestVideoKind_hd_none s StreamKind.combined fmts hfb
        (fun g hg hk => hsmall g hg (Or.inl hk))
    have hvid : get_best_video_format s fmts = none :=
      bestVideoKind_hd_none s StreamKind.videoOnly fmts hfb
        (fun g hg hk => hsmall g hg (Or.inr hk))
    simp [resolveFormat, hv, hc, hvid]

/-- Witness for C3: a 720p combined stream is returned and satisfies the
height floor, and the demonstration format set resolves under next-best
but not under at-least-HD. -/
theorem C3_next_best_hd_floor_witness :
    720 ≤ resolvedHeight (ResolvedFormat.single
      ⟨"22", StreamKind.combined, 720, "VP9", "OPUS", 30, false, 1000⟩) ∧
    resolveFormat
      (Source.mk 'c' "sk" "sn" "sd" "1080p" "VP9" "OPUS" false false 'h')
      [⟨"18", StreamKind.combined, 360, "VP9", "OPUS", 30, false, 500⟩] =
      none :=
  ⟨(C3_next_best_hd_floor
      (Source.mk 'c' "sk" "sn" "sd" "1080p" "VP9" "OPUS" false false 'h')
      [⟨"22", StreamKind.combined, 720, "VP9", "OPUS", 30, false, 1000⟩]
      rfl (by decide)).1
      (ResolvedFormat.single
        ⟨"22", StreamKind.combined, 720, "VP9", "OPUS", 30, false, 1000⟩)
      (by decide),
   (C3_next_best_hd_floor
      (Source.mk 'c' "sk" "sn" "sd" "1080p" "VP9" "OPUS" false false 'h')
      [⟨"18", StreamKind.combined, 360, "VP9", "OPUS", 30, false, 500⟩]
      rfl (by decide)).2.1
      (by decide)⟩

/-- The entry loop of the translated flattening agrees with the claim-side
depth-first leaf sequence on every forest. -/
theorem recurseEntries_eq_dfLeavesForest :
    ∀ es, recurseEntries es = dfLeavesForest es := by
  intro es
  induction es using dfLeavesForest.induct with
  | case1 => simp [recurseEntries, dfLeavesForest]
  | case2 rest ih => simp [recurseEntries, dfLeavesForest, ih]
  | case3 i es rest ih1 ih2 =>
    simp [recurseEntries, dfLeavesForest, recursePlaylists, ih1, ih2]

/-- Every element of the depth-first leaf sequence has no sub-entries. -/
theorem dfLeavesForest_entries_nil :
    ∀ es, ∀ e ∈ dfLeavesForest es, e.entries = [] := by
  intro es
  induction es using dfLeavesForest.induct with
  | case1 => simp [dfLeavesForest]
  | case2 rest ih => simpa [dfLeavesForest] using ih
  | case3 i es rest ih1 ih2 =>
    intro e he
    simp only [dfLeavesForest, List.mem_append] at he
    rcases he with he | he
    · by_cases hemp : es.isEmpty
      · rw [if_pos hemp] at he
        simp only [List.mem_singleton] at he
        subst he
        simpa [PEntry.entries, List.isEmpty_iff] using hemp
      · rw [if_neg hemp] at he
        exact ih1 e he
    · exact ih2 e he

/-- C7: the recursive playlist flattening returns exactly the depth-first
sequence of leaf entries of the response's entry forest, preserving source
ordering, and no returned entry carries sub-entries of its own. -/
theorem C7_recurse_playlists_flat (p : Option PEntry) :
    recursePlaylists p = dfLeavesForest (playlistEntries p) ∧
    ∀ e ∈ recursePlaylists p, e.entries = [] := by
  have h1 : recursePlaylists p = dfLeavesForest (playlistEntries p) := by
    cases p with
    | none => simp [recursePlaylists, dfLeavesForest, playlistEntries]
    | some e =>
      cases e with
      | mk i es =>
        simp [recursePlaylists, playlistEntries, PEntry.entries,
          recurseEntries_eq_dfLeavesForest]
  exact ⟨h1, fun e he => dfLeavesForest_entries_nil _ e (h1 ▸ he)⟩

/-- Witness for C7 at a concrete nested playlist response. -/
theorem C7_recurse_playlists_flat_witness :
    recursePlaylists (some (PEntry.mk "root"
      [some (PEntry.mk "a" []), none,
       some (PEntry.mk "sub" [some (PEntry.mk "b" []),
         some (PEntry.mk "c" [])])])) =
      dfLeavesForest (playlistEntries (some (PEntry.mk "root"
        [some (PEntry.mk "a" []), none,
         some (PEntry.mk "sub" [some (PEntry.mk "b" []),
           some (PEntry.mk "c" [])])]))) ∧
    (PEntry.mk "a" []).entries = [] := by
  have hEval : recursePlaylists (some (PEntry.mk "root"
      [some (PEntry.mk "a" []), none,
       some (PEntry.mk "sub" [some (PEntry.mk "b" []),
         some (PEntry.mk "c" [])])])) =
      [PEntry.mk "a" [], PEntry.mk "b" [], PEntry.mk "c" []] := by
    simp [recursePlaylists, recurseEntries]
  refine ⟨(C7_recurse_playlists_flat _).1, ?_⟩
  exact (C7_recurse_playlists_flat _).2 (PEntry.mk "a" [])
    (by rw [hEval]; exact List.mem_cons_self _ _)

/-- The translated tag segment agrees with the amended tag list: the
preference tags are appended for every source, audio-only included. -/
theorem filenameFmt_eq_amended (m : Media) :
    filenameFmt m = joinDash (claimTagsAmended m.source) := by
  unfold filenameFmt claimTagsAmended
  by_cases ha : m.source.is_audio = true <;>
    by_cases h60 : m.source.prefer_60fps = true <;>
    by_cases hhdr : m.source.prefer_hdr = true <;>
    simp [ha, h60, hhdr]

/-- Counterexample for C5: an audio-only source that prefers 60fps gets an
`opus-60fps` tag segment, not the audio codec alone, so the synthesized
filename differs from the claim's synthesis at this concrete media. -/
theorem C5_filename_counterexample :
    filename (fun _ => none)
      (Media.mk "abc" ⟨2020, 1, 5⟩ none none false
        (Source.mk 'c' "sk" "My Source" "sd" "audio" "VP9" "OPUS"
          true false 'h')) ≠
    filenameClaimed (fun _ => none)
      (Media.mk "abc" ⟨2020, 1, 5⟩ none none false
        (Source.mk 'c' "sk" "My Source" "sd" "audio" "VP9" "OPUS"
          true false 'h')) := by
  decide

/-- C5 (amended): for a media record with no stored file the synthesized
filename is, in order, the upload date (or creation date when the upload
date is unparseable) as `YYYY-MM-DD`, the slugified source name, the capped
slugified title-or-key, the capped key, the dash-joined tag list — where
the `60fps`/`hdr` tags are appended for every source that prefers them,
audio-only sources included — and the container extension. -/
theorem C5_filename_amended (parse : String → Option JsonVal) (m : Media)
    (h : mediaFileTruthy m = false) :
    filename parse m = filenameAmendedSpec parse m := by
  unfold filename filenameAmendedSpec
  cases hext : m.source.extension with
  | error e => simp [h, hext]
  | ok ext =>
    simp only [h, Bool.false_eq_true, if_false, hext, Except.ok.injEq]
    rw [filenameFmt_eq_amended]
    simp [joinUnderscore, String.append_assoc]

/-- Witness for C5 at a concrete media record without a stored file. -/
theorem C5_filename_amended_witness :
    filename (fun _ => none)
      (Media.mk "abc" ⟨2020, 1, 5⟩ none none false
        (Source.mk 'c' "sk" "My Source" "sd" "audio" "VP9" "OPUS"
          true false 'h')) =
    filenameAmendedSpec (fun _ => none)
      (Media.mk "abc" ⟨2020, 1, 5⟩ none none false
        (Source.mk 'c' "sk" "My Source" "sd" "audio" "VP9" "OPUS"
          true false 'h')) :=
  C5_filename_amended (fun _ => none)
    (Media.mk "abc" ⟨2020, 1, 5⟩ none none false
      (Source.mk 'c' "sk" "My Source" "sd" "audio" "VP9" "OPUS"
        true false 'h')) (by decide)

/-- Data of a constructed string is the underlying character list. -/
theorem dataMk (l : List Char) : (String.mk l).data = l := rfl

/-- Lists that agree up to a separator absent from both prefixes split
identically at that separator. -/
theorem append_sep_inj (sep : Char) :
    ∀ (a c b d : List Char), sep ∉ a → sep ∉ c →
      a ++ sep :: b = c ++ sep :: d → a = c ∧ b = d := by
  intro a
  induction a with
  | nil =>
    intro c b d _ hc h
    cases c with
    | nil => simpa using h
    | cons y cs =>
      simp only [List.nil_append, List.cons_append, List.cons.injEq] at h
      exact absurd (by rw [h.1]; exact List.mem_cons_self y cs) hc
  | cons x as ih =>
    intro c b d ha hc h
    cases c with
    | nil =>
      simp only [List.cons_append, List.nil_append, List.cons.injEq] at h
      exact absurd (by rw [← h.1]; exact List.mem_cons_self x as) ha
    | cons y cs =>
      simp only [List.cons_append, List.cons.injEq] at h
      have has : sep ∉ as := fun hm => ha (List.mem_cons_of_mem _ hm)
      have hcs : sep ∉ cs := fun hm => hc (List.mem_cons_of_mem _ hm)
      obtain ⟨hac, hbd⟩ := ih cs b d has hcs h.2
      exact ⟨by rw [h.1, hac], hbd⟩

/-- Replacing underscores with dashes leaves no underscore behind. -/
theorem replaceChar_underscore_not_mem (s : String) :
    '_' ∉ (replaceChar '_' '-' s).data := by
  unfold replaceChar
  intro h
  rw [dataMk] at h
  rcases List.mem_map.mp h with ⟨c, hc, he⟩
  by_cases h' : c = '_'
  · rw [if_pos h'] at he
    exact absurd he (by decide)
  · rw [if_neg h'] at he
    exact h' he

/-- The title segment of the synthesized filename contains no underscore. -/
theorem filenameName_no_underscore (parse : String → Option JsonVal)
    (m : Media) : '_' ∉ (filenameName parse m).data := by
  unfold filenameName pyTake
  intro h
  rw [dataMk] at h
  exact replaceChar_underscore_not_mem _ (List.mem_of_mem_take h)

/-- The key segment of the synthesized filename contains no underscore. -/
theorem filenameKey_no_underscore (m : Media) :
    '_' ∉ (filenameKey m).data := by
  unfold filenameKey pyTake
  intro h
  rw [dataMk] at h
  exact replaceChar_underscore_not_mem _ (List.mem_of_mem_take h)

/-- Equal five-segment underscore-joined strings with a shared date,
source, tag and extension part have equal key segments, provided the title
and key segments are underscore-free. -/
theorem segment_inj (D SN N1 N2 K1 K2 F E : String)
    (hN1 : '_' ∉ N1.data) (hN2 : '_' ∉ N2.data)
    (hK1 : '_' ∉ K1.data) (hK2 : '_' ∉ K2.data)
    (h : D ++ "_" ++ SN ++ "_" ++ N1 ++ "_" ++ K1 ++ "_" ++ F ++ "." ++ E =
      D ++ "_" ++ SN ++ "_" ++ N2 ++ "_" ++ K2 ++ "_" ++ F ++ "." ++ E) :
    K1 = K2 := by
  have hdata := congrArg String.data h
  have hus : ("_" : String).data = ['_'] := rfl
  have hdot : ("." : String).data = ['.'] := rfl
  simp only [String.data_append, List.append_assoc, hus, hdot,
    List.singleton_append, List.cons_append, List.nil_append] at hdata
  have h1 := List.append_cancel_left hdata
  injection h1 with hh h2
  have h3 := List.append_cancel_left h2
  injection h3 with hh2 h4
  have h5 := (append_sep_inj '_' _ _ _ _ hN1 hN2 h4).2
  have h6 := (append_sep_inj '_' _ _ _ _ hK1 hK2 h5).1
  exact String.ext h6

/-- Counterexample for C6: two media records identical except for their
item keys `a_b` and `a-b` receive the same synthesized filename, because
key normalization maps underscores to dashes before the key enters its
segment. -/
theorem C6_filename_counterexample :
    (Media.mk "a_b" ⟨2020, 1, 5⟩ none none false
        (Source.mk 'c' "sk" "My Source" "sd" "1080p" "VP9" "OPUS"
          true false 'h')).key ≠
      (Media.mk "a-b" ⟨2020, 1, 5⟩ none none false
        (Source.mk 'c' "sk" "My Source" "sd" "1080p" "VP9" "OPUS"
          true false 'h')).key ∧
    filename (fun _ => none)
      (Media.mk "a_b" ⟨2020, 1, 5⟩ none none false
        (Source.mk 'c' "sk" "My Source" "sd" "1080p" "VP9" "OPUS"
          true false 'h')) =
    filename (fun _ => none)
      (Media.mk "a-b" ⟨2020, 1, 5⟩ none none false
        (Source.mk 'c' "sk" "My Source" "sd" "1080p" "VP9" "OPUS"
          true false 'h')) := by
  decide

/-- C6 (amended): filename synthesis is deterministic, and for two media
records with no stored file and a defined container extension that are
identical except for their item key, the synthesized filenames differ
provided the keys still differ after normalization (strip, underscore
replacement, truncation to 20 characters), because the normalized key
contributes a distinct underscore-delimited segment. -/
theorem C6_filename_deterministic_injective (parse : String → Option JsonVal)
    (m1 m2 : Media) (ext : String)
    (hsrc : m1.source = m2.source) (hcre : m1.created = m2.created)
    (hmeta : m1.metadata = m2.metadata) (hmf : m1.media_file = m2.media_file)
    (ht : mediaFileTruthy m1 = false)
    (hext : m1.source.extension = Except.ok ext)
    (hkey : filenameKey m1 ≠ filenameKey m2) :
    filename parse m1 = filename parse m1 ∧
    filename parse m1 ≠ filename parse m2 := by
  refine ⟨rfl, ?_⟩
  have ht2 : mediaFileTruthy m2 = false := by
    unfold mediaFileTruthy at ht ⊢
    rw [← hmf]
    exact ht
  have hext2 : m2.source.extension = Except.ok ext := hsrc ▸ hext
  have hD : filenameDateStr parse m1 = filenameDateStr parse m2 := by
    simp [filenameDateStr, upload_date, loaded_metadata, get_metadata_field,
      hmeta, hsrc, hcre]
  have hSN : filenameSourceName m1 = filenameSourceName m2 := by
    simp [filenameSourceName, hsrc]
  have hF : filenameFmt m1 = filenameFmt m2 := by
    simp [filenameFmt, hsrc]
  intro heq
  simp only [filename, ht, ht2, Bool.false_eq_true, if_false, hext, hext2,
    Except.ok.injEq] at heq
  rw [← hD, ← hSN, ← hF] at heq
  exact hkey (segment_inj _ _ _ _ _ _ _ _
    (filenameName_no_underscore parse m1) (filenameName_no_underscore parse m2)
    (filenameKey_no_underscore m1) (filenameKey_no_underscore m2) heq)

/-- Witness for C6: two concrete media records differing only in their
normalized keys get distinct filenames. -/
theorem C6_filename_deterministic_injective_witness :
    filename (fun _ => none)
      (Media.mk "abc" ⟨2020, 1, 5⟩ none none false
        (Source.mk 'c' "sk" "My Source" "sd" "1080p" "VP9" "OPUS"
          true false 'h')) ≠
    filename (fun _ => none)
      (Media.mk "abd" ⟨2020, 1, 5⟩ none none false
        (Source.mk 'c' "sk" "My Source" "sd" "1080p" "VP9" "OPUS"
          true false 'h')) :=
  (C6_filename_deterministic_injective (fun _ => none)
    (Media.mk "abc" ⟨2020, 1, 5⟩ none none false
      (Source.mk 'c' "sk" "My Source" "sd" "1080p" "VP9" "OPUS"
        true false 'h'))
    (Media.mk "abd" ⟨2020, 1, 5⟩ none none false
      (Source.mk 'c' "sk" "My Source" "sd" "1080p" "VP9" "OPUS"
        true false 'h'))
    "mkv" rfl rfl rfl rfl (by decide) (by decide) (by decide)).2

end Tubesync
